import Mathlib

/-!
Verification of the truepic image-analysis micro-service against its
specification.  The definitions below are a shallow embedding of
`src/main.cpp`: the pure helpers (`sanitized`, `is_creator_photoshop`,
`is_modifiedDate_dissimilar`) become Lean functions, and the request
handler (`MyRequestHandler::handleRequest`) becomes a function from the
request together with an environment of external-call results (mktemp,
fopen, the exempi library calls) to an outcome: either the JSON body it
responds with plus a trace of the resource effects it performed, or the
undefined-behaviour state the code reaches when it uses an unchecked
NULL stream.
-/

namespace Truepic

/-- The constant `maxImageSize` (main.cpp:37), as the `Int64` the content
length is compared against. -/
def maxImageSize : Int := 128 * 1024 * 1024

/-- The constant `maxFilenameSize` (main.cpp:38). -/
def maxFilenameSize : Nat := 64

/-- Loop body of `sanitized` (main.cpp:43-45): walk the characters and
return false at the first one that is not alphanumeric (C locale, so ASCII)
nor `_`, `-`, `.`. -/
def sanitizedChars : List Char → Bool
  | [] => true
  | c :: rest =>
    if ¬ (c.isAlpha = true) ∧ ¬ (c.isDigit = true) ∧ c ≠ '_' ∧ c ≠ '-' ∧ c ≠ '.' then
      false
    else
      sanitizedChars rest

/-- The predicate `sanitized` (main.cpp:41-47): the filename character
allow-list. -/
def sanitized (path : String) : Bool :=
  sanitizedChars path.toList

/-- The Filename Sanitizer component as invoked by `validateRequest`
(main.cpp:108-113): the character allow-list `sanitized` followed by the
adjacent maximum-length check. -/
def sanitizerAccepts (s : String) : Bool :=
  sanitized s && ! decide (s.length > maxFilenameSize)

/-- The exempi `XmpDateTime` record, with the fields the code reads. -/
structure XmpDateTime where
  year : Int
  month : Int
  day : Int
  hour : Int
  minute : Int
  second : Int
  tzSign : Int
  tzHour : Int
  tzMinute : Int
  nanoSecond : Int
  deriving DecidableEq

/-- The extracted XMP metadata block, as the three properties the code
queries: `xmp:CreatorTool`, `xmp:CreateDate`, `xmp:ModifyDate`.  A `none`
models `xmp_get_property`/`xmp_get_property_date` reporting the property
absent. -/
structure XmpData where
  creatorTool : Option String
  createDate : Option XmpDateTime
  modifyDate : Option XmpDateTime
  deriving DecidableEq

/-- Models C `strncmp(a, b, n) == 0` for NUL-free strings: the first `n`
characters (or all of them, for a shorter string) must agree. -/
def strncmpEqZero (a b : String) (n : Nat) : Bool :=
  a.toList.take n == b.toList.take n

/-- The heuristic `is_creator_photoshop` (main.cpp:50-60): the property is
found and its value agrees with "Adobe Photoshop " on the first 16
characters. -/
def is_creator_photoshop (xmp : XmpData) : Bool :=
  match xmp.creatorTool with
  | none => false
  | some s => strncmpEqZero s "Adobe Photoshop " 16

/-- The heuristic `is_modifiedDate_dissimilar` (main.cpp:63-86): false when
either date
is absent; otherwise the negation of field-wise equality on year, month,
day, hour, minute, second (tzSign, tzHour, tzMinute, nanoSecond ignored,
as the code's comment says). -/
def is_modifiedDate_dissimilar (xmp : XmpData) : Bool :=
  match xmp.createDate with
  | none => false
  | some created =>
    match xmp.modifyDate with
    | none => false
    | some modified =>
      ! (created.year == modified.year &&
         created.month == modified.month &&
         created.day == modified.day &&
         created.hour == modified.hour &&
         created.minute == modified.minute &&
         created.second == modified.second)

/-- Models the external Poco collaborator `URI::getPathSegments`: split the
URI path on `/`, pushing a segment only when it is non-empty (Poco never
produces an empty segment).  First argument: remaining characters; second:
the segment accumulated so far. -/
def pocoSegmentsAux : List Char → List Char → List String
  | [], seg => if seg = [] then [] else [String.mk seg]
  | c :: rest, seg =>
    if c = '/' then
      if seg = [] then pocoSegmentsAux rest []
      else String.mk seg :: pocoSegmentsAux rest []
    else
      pocoSegmentsAux rest (seg ++ [c])

/-- The path segments of a request URI, as Poco hands them to
`validateRequest` (main.cpp:98-101). -/
def getPathSegments (path : String) : List String :=
  pocoSegmentsAux path.toList []

/-- Poco `HTTPMessage::UNKNOWN_CONTENT_LENGTH`: the value
`getContentLength64` returns when no length is declared. -/
def UNKNOWN_CONTENT_LENGTH : Int := -1

/-- The accepted MIME type (main.cpp:123). -/
def acceptedContentType : String := "application/x-www-form-urlencoded"

/-- The parts of a `Poco::Net::HTTPServerRequest` the handler reads: the
URI path, the declared content length (`-1` when unknown) and the content
type. -/
structure HTTPRequest where
  path : String
  contentLength : Int
  contentType : String

/-- The five checks of `validateRequest`, in source order. -/
inductive ValidateFailure where
  | segmentCount
  | sanitizerCheck
  | nameLength
  | contentLengthCheck
  | contentTypeCheck
  deriving DecidableEq

/-- The single path segment a valid request names (`segments[0]`,
main.cpp:115); `""` when there is no segment. -/
def firstSegment (req : HTTPRequest) : String :=
  (getPathSegments req.path).headD ""

/-- The validator `validateRequest` (main.cpp:96-127) with its short-circuit
structure made explicit: the first check that fails, or `none` when all
pass. -/
def validateFirstFailure (req : HTTPRequest) : Option ValidateFailure :=
  let segments := getPathSegments req.path
  if segments.length ≠ 1 then some .segmentCount
  else if sanitized (segments.headD "") = false then some .sanitizerCheck
  else if (segments.headD "").length > maxFilenameSize then some .nameLength
  else if req.contentLength = UNKNOWN_CONTENT_LENGTH ∨ req.contentLength > maxImageSize then
    some .contentLengthCheck
  else if req.contentType ≠ acceptedContentType then some .contentTypeCheck
  else none

/-- The boolean `validateRequest` returns. -/
def validateRequest (req : HTTPRequest) : Bool :=
  (validateFirstFailure req).isNone

/-- The order in which the source evaluates its checks. -/
def checkOrder : List ValidateFailure :=
  [.segmentCount, .sanitizerCheck, .nameLength, .contentLengthCheck, .contentTypeCheck]

/-- Whether one individual check of `validateRequest` passes, stated
independently of the others. -/
def checkPasses (req : HTTPRequest) : ValidateFailure → Bool
  | .segmentCount => (getPathSegments req.path).length == 1
  | .sanitizerCheck => sanitized (firstSegment req)
  | .nameLength => decide ((firstSegment req).length ≤ maxFilenameSize)
  | .contentLengthCheck =>
    decide (req.contentLength ≠ UNKNOWN_CONTENT_LENGTH ∧ req.contentLength ≤ maxImageSize)
  | .contentTypeCheck => req.contentType == acceptedContentType

/-- A `Poco::JSON::Object` value as the handler builds it: booleans,
strings, and one nested object (the `tests` mapping). -/
inductive JsonValue where
  | bool (b : Bool)
  | str (s : String)
  | obj (fields : List (String × JsonValue))

/-- Poco `JSON::Object::set` with `JSON_PRESERVE_KEY_ORDER`: replace an
existing key in place, else append the pair. -/
def jsonSet (o : List (String × JsonValue)) (k : String) (v : JsonValue) :
    List (String × JsonValue) :=
  if o.any (fun p => p.1 == k) then
    o.map (fun p => if p.1 == k then (k, v) else p)
  else
    o ++ [(k, v)]

/-- Whether the JSON object carries a key. -/
def hasKey (o : List (String × JsonValue)) (k : String) : Bool :=
  o.any (fun p => p.1 == k)

/-- The value stored under a key, if any. -/
def lookupKey (o : List (String × JsonValue)) (k : String) : Option JsonValue :=
  (o.find? (fun p => p.1 == k)).map Prod.snd

/-- The exempi `XmpFileType` enumeration: only the comparison with
`XMP_FT_JPEG` matters to the code (main.cpp:214). -/
inductive XmpFileType where
  | jpeg
  | pdf
  | tiff
  | gif
  | png
  | unknown
  deriving DecidableEq

/-- The results of the external calls `handleRequest` makes, fixed for one
request: whether `mktemp` yields a name, whether `fopen` yields a stream,
whether `xmp_files_open_new` yields a handle, what `xmp_files_get_new_xmp`
extracts (`none` = NULL), and the container type
`xmp_files_get_file_info` reports. -/
structure ExtractionEnv where
  mktempOk : Bool
  fopenOk : Bool
  filesOpenOk : Bool
  xmpData : Option XmpData
  fileType : XmpFileType

/-- What the handler did to its transient resources while running: was the
staged temp file created / removed, were `xmp_init` / `xmp_terminate`
called, was the `XmpFilePtr` opened / freed, was the `XmpPtr` created /
freed. -/
structure ResourceTrace where
  tempFileCreated : Bool
  tempFileRemoved : Bool
  xmpInitCalled : Bool
  xmpTerminateCalled : Bool
  xmpFileOpened : Bool
  xmpFileFreed : Bool
  xmpHandleCreated : Bool
  xmpHandleFreed : Bool
  deriving DecidableEq

/-- The trace before any resource is touched. -/
def noResources : ResourceTrace :=
  ⟨false, false, false, false, false, false, false, false⟩

/-- How one execution of `handleRequest` ends: the JSON body it sends plus
its resource trace, or the undefined behaviour the code reaches when
`fopen` fails and the NULL stream is passed to `fputc`/`fclose`
(main.cpp:166-173 has no NULL check). -/
inductive HandlerOutcome where
  | responds (body : List (String × JsonValue)) (trace : ResourceTrace)
  | crashes (trace : ResourceTrace)

/-- The handler `MyRequestHandler::handleRequest` (main.cpp:129-247).  The
`do { } while (0)` with `break`s becomes nested conditionals; every
`break` lands on the common exit that stringifies `obj`.  Each branch
records the resource effects performed up to its exit: the source contains
no `unlink`/`remove` of the temp file, so `tempFileRemoved` is false on
every path, and the exempi handles are released exactly where the source
frees them. -/
def handleRequest (req : HTTPRequest) (env : ExtractionEnv) : HandlerOutcome :=
  let obj := jsonSet [] "is_valid" (JsonValue.bool false)
  if ! validateRequest req then
    -- main.cpp:151-152: validation failed, break before "name" is set
    .responds obj noResources
  else
    let obj := jsonSet obj "name" (JsonValue.str (firstSegment req))
    if ! env.mktempOk then
      -- main.cpp:163-164: mktemp produced no unique name, break
      .responds obj noResources
    else if ! env.fopenOk then
      -- main.cpp:166-173: fopen returned NULL and the stream is used anyway
      .crashes noResources
    else if ! env.filesOpenOk then
      -- main.cpp:194-195: temp file written and closed, xmp_init done,
      -- xmp_files_open_new returned NULL, break
      .responds obj ⟨true, false, true, false, false, false, false, false⟩
    else
      match env.xmpData with
      | none =>
        -- main.cpp:204-207: extraction failed, xmp_files_free then break
        .responds obj ⟨true, false, true, false, true, true, false, false⟩
      | some xmp =>
        if env.fileType ≠ XmpFileType.jpeg then
          -- main.cpp:214-215: not a JPEG, break (nothing freed here)
          .responds obj ⟨true, false, true, false, true, false, true, false⟩
        else
          -- main.cpp:220-243: the success path
          let obj := jsonSet obj "is_valid" (JsonValue.bool true)
          let tests :=
            jsonSet
              (jsonSet [] "creator_tool_is_photoshop"
                (JsonValue.bool (is_creator_photoshop xmp)))
              "create_modify_mismatch"
              (JsonValue.bool (is_modifiedDate_dissimilar xmp))
          let obj := jsonSet obj "tests" (JsonValue.obj tests)
          .responds obj ⟨true, false, true, true, true, false, true, true⟩

/-- The JSON body of a completed response. -/
def responseBody : HandlerOutcome → Option (List (String × JsonValue))
  | .responds body _ => some body
  | .crashes _ => none

/-- The resource trace at the end of the handler. -/
def responseTrace : HandlerOutcome → ResourceTrace
  | .responds _ tr => tr
  | .crashes tr => tr

/-- The body of a verdict that failed validation: exactly
`{"is_valid": false}`. -/
def failBody : List (String × JsonValue) :=
  [("is_valid", JsonValue.bool false)]

/-- The body of a verdict that passed validation and then aborted:
`{"is_valid": false, "name": n}`. -/
def namedFailBody (n : String) : List (String × JsonValue) :=
  [("is_valid", JsonValue.bool false), ("name", JsonValue.str n)]

/-- The full trace of the successful path: file staged and never removed,
libexempi initialised and terminated, file handle opened and never freed,
metadata handle created and freed. -/
def successTrace : ResourceTrace :=
  ⟨true, false, true, true, true, false, true, true⟩

/-- The trace of the not-a-JPEG abort: file staged and never removed,
init done but terminate skipped, both exempi handles leaked. -/
def nonJpegTrace : ResourceTrace :=
  ⟨true, false, true, false, true, false, true, false⟩

/-- The body of a successful verdict. -/
def successBody (n : String) (xmp : XmpData) : List (String × JsonValue) :=
  [("is_valid", JsonValue.bool true), ("name", JsonValue.str n),
   ("tests", JsonValue.obj
     [("creator_tool_is_photoshop", JsonValue.bool (is_creator_photoshop xmp)),
      ("create_modify_mismatch", JsonValue.bool (is_modifiedDate_dissimilar xmp))])]


/-- A fixture date. -/
def demoDate : XmpDateTime := ⟨2021, 5, 1, 12, 0, 0, 1, 0, 0, 0⟩

/-- Well-formed metadata: a Photoshop creator tool and both timestamps. -/
def demoXmp : XmpData := ⟨some "Adobe Photoshop 22.0", some demoDate, some demoDate⟩

/-- A request that passes every validation check. -/
def demoRequest : HTTPRequest := ⟨"/photo.jpg", 1024, "application/x-www-form-urlencoded"⟩

/-- An environment in which every external call succeeds and the staged
bytes are a JPEG containing `x`. -/
def jpegEnv (x : XmpData) : ExtractionEnv := ⟨true, true, true, some x, XmpFileType.jpeg⟩

/-- A valid request whose body is a PNG. -/
def pngRequest : HTTPRequest := ⟨"/photo.png", 1024, "application/x-www-form-urlencoded"⟩

/-- Every external call succeeds, the container is PNG, metadata well-formed. -/
def pngEnv : ExtractionEnv := ⟨true, true, true, some demoXmp, XmpFileType.png⟩

/-- A request whose single path segment is fine but whose content type is
not the accepted one. -/
def plainRequest : HTTPRequest := ⟨"/a", 10, "text/plain"⟩

/-- The character class of the spec, `A`-`Z`, `a`-`z`, `0`-`9`, `_`, `-`,
`.`, as ranges. -/
def allowedChar (c : Char) : Prop :=
  ('A' ≤ c ∧ c ≤ 'Z') ∨ ('a' ≤ c ∧ c ≤ 'z') ∨ ('0' ≤ c ∧ c ≤ '9') ∨
    c = '_' ∨ c = '-' ∨ c = '.'

lemma isAlpha_iff (c : Char) :
    c.isAlpha = true ↔ ('A' ≤ c ∧ c ≤ 'Z') ∨ ('a' ≤ c ∧ c ≤ 'z') := by
  simp [Char.isAlpha, Char.isUpper, Char.isLower, Char.le_def]

lemma isDigit_iff (c : Char) : c.isDigit = true ↔ ('0' ≤ c ∧ c ≤ '9') := by
  simp [Char.isDigit, Char.le_def]

lemma char_cond_iff (c : Char) :
    (¬ (c.isAlpha = true) ∧ ¬ (c.isDigit = true) ∧ c ≠ '_' ∧ c ≠ '-' ∧ c ≠ '.') ↔
      ¬ allowedChar c := by
  rw [allowedChar, isAlpha_iff, isDigit_iff]
  tauto

lemma sanitizedChars_iff (l : List Char) :
    sanitizedChars l = true ↔ ∀ c ∈ l, allowedChar c := by
  induction l with
  | nil => simp [sanitizedChars]
  | cons c rest ih =>
    by_cases h : allowedChar c
    · rw [sanitizedChars, if_neg (fun hx => (char_cond_iff c).mp hx h)]
      simp [ih, h]
    · rw [sanitizedChars, if_pos ((char_cond_iff c).mpr h)]
      simp only [Bool.false_eq_true, false_iff]
      intro hall
      exact h (hall c (List.mem_cons_self c rest))

lemma sanitized_iff (s : String) :
    sanitized s = true ↔ ∀ c ∈ s.toList, allowedChar c := sanitizedChars_iff s.toList

/-- Claim C5: the Filename Sanitizer accepts a candidate name if and only
if every character is an ASCII letter, a digit, an underscore, a hyphen or
a dot, and the length is at most 64; any other character or a longer name
causes rejection. -/
theorem sanitizer_accepts_iff (s : String) :
    sanitizerAccepts s = true ↔ ((∀ c ∈ s.toList, allowedChar c) ∧ s.length ≤ 64) := by
  rw [sanitizerAccepts, Bool.and_eq_true, sanitized_iff]
  simp [maxFilenameSize]

lemma pocoSegmentsAux_ne_empty (cs : List Char) :
    ∀ seg, "" ∉ pocoSegmentsAux cs seg := by
  induction cs with
  | nil =>
    intro seg
    by_cases h : seg = []
    · simp [pocoSegmentsAux, h]
    · simp only [pocoSegmentsAux, if_neg h, List.mem_singleton]
      intro he
      exact h (String.ext_iff.mp he.symm)
  | cons c rest ih =>
    intro seg
    by_cases hc : c = '/'
    · by_cases h : seg = []
      · simpa [pocoSegmentsAux, hc, h] using ih []
      · simp only [pocoSegmentsAux, if_pos hc, if_neg h, List.mem_cons]
        rintro (he | he)
        · exact h (String.ext_iff.mp he.symm)
        · exact ih [] he
    · simpa [pocoSegmentsAux, hc] using ih (seg ++ [c])

/-- Claim C10: the Filename Sanitizer accepts the empty string, its
character check being vacuously satisfied; Poco path segmentation never
yields an empty segment, and a path with no segment is rejected by the
segment-count check, so rejection of an empty name rests on the
segment-count check and never on the Sanitizer itself. -/
theorem empty_name_rejection :
    sanitized "" = true ∧ (∀ p : String, "" ∉ getPathSegments p) ∧
    (∀ cl ct, validateFirstFailure ⟨"/", cl, ct⟩ = some ValidateFailure.segmentCount) :=
  ⟨rfl, fun p => pocoSegmentsAux_ne_empty p.toList [], fun _ _ => rfl⟩

/-- Claim C6: the Request Validator evaluates its checks in the stated
order, short-circuiting on the first failure (the failure it reports is
the first check in source order that fails), and it accepts a request if
and only if the path has exactly one segment, that segment passes the
Sanitizer, the declared content length is known and at most 134217728
bytes, and the content type is exactly the form-encoded MIME type. -/
theorem validate_order_and_acceptance (req : HTTPRequest) :
    validateFirstFailure req = checkOrder.find? (fun c => ! checkPasses req c) ∧
    (validateRequest req = true ↔
      ((getPathSegments req.path).length = 1 ∧ sanitizerAccepts (firstSegment req) = true ∧
       req.contentLength ≠ UNKNOWN_CONTENT_LENGTH ∧ req.contentLength ≤ maxImageSize ∧
       req.contentType = acceptedContentType)) := by
  have horder : validateFirstFailure req = checkOrder.find? (fun c => ! checkPasses req c) := by
    rw [checkOrder]
    by_cases cA : (getPathSegments req.path).length ≠ 1
    · have p1 : (! checkPasses req ValidateFailure.segmentCount) = true := by
        simp [checkPasses, cA]
      rw [List.find?_cons_of_pos (p := fun c => ! checkPasses req c) _ p1]
      simp only [validateFirstFailure]
      rw [if_pos cA]
    · have p1 : ¬ ((! checkPasses req ValidateFailure.segmentCount) = true) := by
        simp [checkPasses]
        exact not_not.mp cA
      rw [List.find?_cons_of_neg (p := fun c => ! checkPasses req c) _ p1]
      by_cases cB : sanitized ((getPathSegments req.path).headD "") = false
      · have p2 : (! checkPasses req ValidateFailure.sanitizerCheck) = true := by
          simp only [checkPasses, firstSegment, Bool.not_eq_true']
          exact cB
        rw [List.find?_cons_of_pos (p := fun c => ! checkPasses req c) _ p2]
        simp only [validateFirstFailure]
        rw [if_neg cA, if_pos cB]
      · have p2 : ¬ ((! checkPasses req ValidateFailure.sanitizerCheck) = true) := by
          simp only [checkPasses, firstSegment, Bool.not_eq_true']
          exact cB
        rw [List.find?_cons_of_neg (p := fun c => ! checkPasses req c) _ p2]
        by_cases cC : ((getPathSegments req.path).headD "").length > maxFilenameSize
        · have p3 : (! checkPasses req ValidateFailure.nameLength) = true := by
            simp only [checkPasses, firstSegment, Bool.not_eq_true', decide_eq_false_iff_not,
              not_le]
            exact cC
          rw [List.find?_cons_of_pos (p := fun c => ! checkPasses req c) _ p3]
          simp only [validateFirstFailure]
          rw [if_neg cA, if_neg cB, if_pos cC]
        · have p3 : ¬ ((! checkPasses req ValidateFailure.nameLength) = true) := by
            simp only [checkPasses, firstSegment, Bool.not_eq_true', decide_eq_false_iff_not,
              not_le, not_lt]
            omega
          rw [List.find?_cons_of_neg (p := fun c => ! checkPasses req c) _ p3]
          by_cases cD : req.contentLength = UNKNOWN_CONTENT_LENGTH ∨
              req.contentLength > maxImageSize
          · have p4 : (! checkPasses req ValidateFailure.contentLengthCheck) = true := by
              simp only [checkPasses, Bool.not_eq_true']
              rw [decide_eq_false_iff_not]
              rcases cD with h | h
              · exact fun hx => hx.1 h
              · exact fun hx => absurd hx.2 (not_le.mpr h)
            rw [List.find?_cons_of_pos (p := fun c => ! checkPasses req c) _ p4]
            simp only [validateFirstFailure]
            rw [if_neg cA, if_neg cB, if_neg (fun h => absurd h (not_lt.mpr (not_lt.mp cC))),
              if_pos cD]
          · have p4 : ¬ ((! checkPasses req ValidateFailure.contentLengthCheck) = true) := by
              push_neg at cD
              simp [checkPasses, cD.1, cD.2]
            rw [List.find?_cons_of_neg (p := fun c => ! checkPasses req c) _ p4]
            by_cases cE : req.contentType ≠ acceptedContentType
            · have p5 : (! checkPasses req ValidateFailure.contentTypeCheck) = true := by
                simp [checkPasses, cE]
              rw [List.find?_cons_of_pos (p := fun c => ! checkPasses req c) _ p5]
              simp only [validateFirstFailure]
              rw [if_neg cA, if_neg cB, if_neg cC, if_neg cD, if_pos cE]
            · have p5 : ¬ ((! checkPasses req ValidateFailure.contentTypeCheck) = true) := by
                simp [checkPasses]
                exact not_not.mp cE
              rw [List.find?_cons_of_neg (p := fun c => ! checkPasses req c) _ p5,
                List.find?_nil]
              simp only [validateFirstFailure]
              rw [if_neg cA, if_neg cB, if_neg cC, if_neg cD, if_neg cE]
  refine ⟨horder, ?_⟩
  have hacc : validateRequest req = true ↔ ∀ c ∈ checkOrder, checkPasses req c = true := by
    rw [validateRequest, horder, Option.isNone_iff_eq_none, List.find?_eq_none]
    simp
  rw [hacc]
  simp only [checkOrder, List.mem_cons, List.not_mem_nil, or_false, forall_eq_or_imp,
    forall_eq, checkPasses, sanitizerAccepts, firstSegment, Bool.and_eq_true,
    Bool.not_eq_true', decide_eq_false_iff_not, decide_eq_true_eq, beq_iff_eq, not_lt]
  tauto

/-- Claim C7: create_modify_mismatch is false when either timestamp is
absent, and when both are present it is true exactly when they differ in
year, month, day, hour, minute or second; the timezone-offset and
sub-second fields do not occur in the condition, so they are ignored. -/
theorem create_modify_mismatch_spec (xmp : XmpData) :
    is_modifiedDate_dissimilar xmp = true ↔
      ∃ c m, xmp.createDate = some c ∧ xmp.modifyDate = some m ∧
        (c.year ≠ m.year ∨ c.month ≠ m.month ∨ c.day ≠ m.day ∨
         c.hour ≠ m.hour ∨ c.minute ≠ m.minute ∨ c.second ≠ m.second) := by
  obtain ⟨ct, cd, md⟩ := xmp
  cases cd with
  | none => simp [is_modifiedDate_dissimilar]
  | some c =>
    cases md with
    | none => simp [is_modifiedDate_dissimilar]
    | some m =>
      simp [is_modifiedDate_dissimilar, not_and_or]
      tauto

/-- Claim C8: creator_tool_is_photoshop is true exactly when the
creator-tool property is present and its value begins with the
16-character signature "Adobe Photoshop "; an absent property or a value
with any other beginning yields false, and the test is a total function,
never an error. -/
theorem creator_tool_photoshop_spec (xmp : XmpData) :
    is_creator_photoshop xmp = true ↔
      ∃ s rest, xmp.creatorTool = some s ∧
        s.toList = "Adobe Photoshop ".toList ++ rest := by
  obtain ⟨ct, cd, md⟩ := xmp
  cases ct with
  | none => simp [is_creator_photoshop]
  | some s =>
    simp only [is_creator_photoshop, strncmpEqZero, Option.some.injEq]
    have hp : ("Adobe Photoshop ".toList).take 16 = "Adobe Photoshop ".toList := rfl
    have hlen : ("Adobe Photoshop ".toList).length = 16 := rfl
    rw [hp]
    constructor
    · intro h
      have h' : s.toList.take 16 = "Adobe Photoshop ".toList := by
        simpa using h
      refine ⟨s, s.toList.drop 16, rfl, ?_⟩
      conv_lhs => rw [← List.take_append_drop 16 s.toList]
      rw [h']
    · rintro ⟨s', rest, rfl, hlist⟩
      simp only [beq_iff_eq]
      rw [hlist, List.take_left' hlen]

lemma jsonSet_init_eq : jsonSet [] "is_valid" (JsonValue.bool false) = failBody := rfl

lemma jsonSet_fail_name (n : String) :
    jsonSet failBody "name" (JsonValue.str n) = namedFailBody n := rfl

lemma jsonSet_named_valid (n : String) :
    jsonSet (namedFailBody n) "is_valid" (JsonValue.bool true) =
      [("is_valid", JsonValue.bool true), ("name", JsonValue.str n)] := rfl

lemma jsonSet_tests_pair (xmp : XmpData) :
    jsonSet
      (jsonSet [] "creator_tool_is_photoshop" (JsonValue.bool (is_creator_photoshop xmp)))
      "create_modify_mismatch" (JsonValue.bool (is_modifiedDate_dissimilar xmp)) =
    [("creator_tool_is_photoshop", JsonValue.bool (is_creator_photoshop xmp)),
     ("create_modify_mismatch", JsonValue.bool (is_modifiedDate_dissimilar xmp))] := rfl

lemma jsonSet_success (n : String) (xmp : XmpData) :
    jsonSet [("is_valid", JsonValue.bool true), ("name", JsonValue.str n)] "tests"
      (JsonValue.obj
        [("creator_tool_is_photoshop", JsonValue.bool (is_creator_photoshop xmp)),
         ("create_modify_mismatch", JsonValue.bool (is_modifiedDate_dissimilar xmp))]) =
    successBody n xmp := rfl

lemma hasKey_fail_name : hasKey failBody "name" = false := rfl

lemma hasKey_named_name (n : String) : hasKey (namedFailBody n) "name" = true := rfl

lemma hasKey_success_name (n : String) (xmp : XmpData) :
    hasKey (successBody n xmp) "name" = true := rfl

lemma hasKey_fail_tests : hasKey failBody "tests" = false := rfl

lemma hasKey_named_tests (n : String) : hasKey (namedFailBody n) "tests" = false := rfl

lemma lookup_fail_tests : lookupKey failBody "tests" = none := rfl

lemma lookup_fail_isvalid : lookupKey failBody "is_valid" = some (JsonValue.bool false) := rfl

lemma lookup_named_tests (n : String) : lookupKey (namedFailBody n) "tests" = none := rfl

lemma lookup_named_isvalid (n : String) :
    lookupKey (namedFailBody n) "is_valid" = some (JsonValue.bool false) := rfl

lemma lookup_success_tests (n : String) (xmp : XmpData) :
    lookupKey (successBody n xmp) "tests" =
      some (JsonValue.obj
        [("creator_tool_is_photoshop", JsonValue.bool (is_creator_photoshop xmp)),
         ("create_modify_mismatch", JsonValue.bool (is_modifiedDate_dissimilar xmp))]) := rfl

lemma lookup_success_isvalid (n : String) (xmp : XmpData) :
    lookupKey (successBody n xmp) "is_valid" = some (JsonValue.bool true) := rfl

/-- Every completed response's body is one of three shapes: the bare
failure verdict, the named failure verdict, or the full success verdict. -/
lemma handleRequest_body_cases (req : HTTPRequest) (env : ExtractionEnv)
    (body : List (String × JsonValue)) (tr : ResourceTrace)
    (h : handleRequest req env = HandlerOutcome.responds body tr) :
    (validateRequest req = false ∧ body = failBody) ∨
    (validateRequest req = true ∧ body = namedFailBody (firstSegment req)) ∨
    (validateRequest req = true ∧ ∃ xmp, body = successBody (firstSegment req) xmp) := by
  obtain ⟨mk, fo, fl, xd, ft⟩ := env
  cases hv : validateRequest req with
  | false =>
    left
    simp [handleRequest, hv, jsonSet_init_eq] at h
    exact ⟨rfl, h.1.symm⟩
  | true =>
    cases mk with
    | false =>
      right; left
      simp [handleRequest, hv, jsonSet_init_eq, jsonSet_fail_name] at h
      exact ⟨rfl, h.1.symm⟩
    | true =>
      cases fo with
      | false => simp [handleRequest, hv] at h
      | true =>
        cases fl with
        | false =>
          right; left
          simp [handleRequest, hv, jsonSet_init_eq, jsonSet_fail_name] at h
          exact ⟨rfl, h.1.symm⟩
        | true =>
          cases xd with
          | none =>
            right; left
            simp [handleRequest, hv, jsonSet_init_eq, jsonSet_fail_name] at h
            exact ⟨rfl, h.1.symm⟩
          | some xmp =>
            by_cases hft : ft = XmpFileType.jpeg
            · right; right
              refine ⟨rfl, xmp, ?_⟩
              simp [handleRequest, hv, hft, jsonSet_init_eq, jsonSet_fail_name,
                jsonSet_named_valid, jsonSet_tests_pair, jsonSet_success] at h
              exact h.1.symm
            · right; left
              simp [handleRequest, hv, hft, jsonSet_init_eq, jsonSet_fail_name] at h
              exact ⟨rfl, h.1.symm⟩

/-- Claim C3, amended: in every verdict the handler responds with, the
"name" field is present if and only if the whole request validation
succeeded, not merely the Sanitizer check of the path segment. -/
theorem name_iff_validated (req : HTTPRequest) (env : ExtractionEnv)
    (body : List (String × JsonValue)) (tr : ResourceTrace)
    (h : handleRequest req env = HandlerOutcome.responds body tr) :
    hasKey body "name" = true ↔ validateRequest req = true := by
  rcases handleRequest_body_cases req env body tr h with ⟨hv, rfl⟩ | ⟨hv, rfl⟩ |
    ⟨hv, xmp, rfl⟩
  · simp [hasKey_fail_name, hv]
  · simp [hasKey_named_name, hv]
  · simp [hasKey_success_name, hv]

/-- Witness for the amended claim C3, at a concrete request that fails
the content-type check. -/
theorem name_iff_validated_witness :
    hasKey failBody "name" = true ↔ validateRequest plainRequest = true :=
  name_iff_validated plainRequest (jpegEnv demoXmp) failBody noResources rfl

/-- Counterexample to claim C3 as stated: the request for path "/a" with
content type "text/plain" has its single segment accepted by the
Sanitizer, yet the handler's verdict carries no "name" key. -/
theorem sanitizer_accepted_but_name_absent :
    getPathSegments plainRequest.path = ["a"] ∧ sanitizerAccepts "a" = true ∧
    handleRequest plainRequest (jpegEnv demoXmp) =
      HandlerOutcome.responds failBody noResources ∧
    hasKey failBody "name" = false :=
  ⟨rfl, rfl, rfl, rfl⟩

/-- Claim C4: in every verdict the handler responds with, the "tests"
mapping is present and non-empty if and only if "is_valid" is true. -/
theorem tests_iff_valid (req : HTTPRequest) (env : ExtractionEnv)
    (body : List (String × JsonValue)) (tr : ResourceTrace)
    (h : handleRequest req env = HandlerOutcome.responds body tr) :
    (∃ t, lookupKey body "tests" = some (JsonValue.obj t) ∧ t ≠ []) ↔
      lookupKey body "is_valid" = some (JsonValue.bool true) := by
  rcases handleRequest_body_cases req env body tr h with ⟨hv, rfl⟩ | ⟨hv, rfl⟩ |
    ⟨hv, xmp, rfl⟩
  · simp [lookup_fail_tests, lookup_fail_isvalid]
  · simp [lookup_named_tests, lookup_named_isvalid]
  · simp [lookup_success_tests, lookup_success_isvalid]

/-- Witness for claim C4, at a concrete fully successful request. -/
theorem tests_iff_valid_witness :
    (∃ t, lookupKey (successBody (firstSegment demoRequest) demoXmp) "tests" =
        some (JsonValue.obj t) ∧ t ≠ []) ↔
      lookupKey (successBody (firstSegment demoRequest) demoXmp) "is_valid" =
        some (JsonValue.bool true) :=
  tests_iff_valid demoRequest (jpegEnv demoXmp)
    (successBody (firstSegment demoRequest) demoXmp) successTrace rfl

/-- Claim C2, amended: a request failing any Validator check is answered
with the body exactly is_valid false, carrying no "name" and no "tests"
key; an upload that passes validation but whose staged bytes are not a
JPEG container (even with well-formed metadata) is answered with is_valid
false plus the echoed "name", still with no "tests" key. -/
theorem failure_verdict_bodies (req : HTTPRequest) (env : ExtractionEnv) :
    (validateRequest req = false → handleRequest req env =
      HandlerOutcome.responds failBody noResources) ∧
    (∀ xmp t, validateRequest req = true → t ≠ XmpFileType.jpeg →
      handleRequest req ⟨true, true, true, some xmp, t⟩ =
        HandlerOutcome.responds (namedFailBody (firstSegment req)) nonJpegTrace) ∧
    hasKey failBody "name" = false ∧ hasKey failBody "tests" = false ∧
    (∀ n, hasKey (namedFailBody n) "tests" = false) := by
  refine ⟨?_, ?_, rfl, rfl, fun n => rfl⟩
  · intro hv
    simp [handleRequest, hv, jsonSet_init_eq]
  · intro xmp t hv ht
    simp [handleRequest, hv, ht, jsonSet_init_eq, jsonSet_fail_name, nonJpegTrace]

/-- Counterexample to claim C2 as stated: a valid request uploading a PNG
with well-formed metadata is answered with a body carrying a "name" key,
so that body is not exactly the bare is_valid-false object. -/
theorem nonjpeg_response_contains_name :
    handleRequest pngRequest pngEnv =
      HandlerOutcome.responds (namedFailBody "photo.png") nonJpegTrace ∧
    hasKey (namedFailBody "photo.png") "name" = true ∧
    namedFailBody "photo.png" ≠ failBody :=
  ⟨rfl, rfl, fun h => by simpa [namedFailBody, failBody] using congrArg List.length h⟩

/-- Claim C1 evaluated on the code: on a fully successful request the
staged temp file is created and never removed and the XmpFilePtr is never
freed; on the not-a-JPEG abort the staged file also stays, the metadata
handle is never freed and xmp_terminate is never called.  Transient
resources are thus not released on every exit path. -/
theorem transient_resources_leak :
    responseTrace (handleRequest demoRequest (jpegEnv demoXmp)) = successTrace ∧
    successTrace.tempFileCreated = true ∧ successTrace.tempFileRemoved = false ∧
    successTrace.xmpFileFreed = false ∧
    responseTrace (handleRequest pngRequest pngEnv) = nonJpegTrace ∧
    nonJpegTrace.tempFileCreated = true ∧ nonJpegTrace.tempFileRemoved = false ∧
    nonJpegTrace.xmpHandleFreed = false ∧ nonJpegTrace.xmpTerminateCalled = false :=
  ⟨rfl, rfl, rfl, rfl, rfl, rfl, rfl, rfl, rfl⟩

/-- Claim C9 evaluated on the code: when fopen fails while staging, the
handler reaches undefined behaviour (fputc and fclose on a NULL stream)
instead of answering is_valid false, so a staging failure can be fatal to
the process; a mktemp staging failure, by contrast, is answered with the
well-formed failure verdict. -/
theorem staging_failure_outcomes :
    handleRequest demoRequest ⟨true, false, true, some demoXmp, XmpFileType.jpeg⟩ =
      HandlerOutcome.crashes noResources ∧
    handleRequest demoRequest ⟨false, true, true, some demoXmp, XmpFileType.jpeg⟩ =
      HandlerOutcome.responds (namedFailBody (firstSegment demoRequest)) noResources :=
  ⟨rfl, rfl⟩

end Truepic
